import Mathlib

/-!
Verification of the core logic of the Testing-Insights-Agent repository.

The Python sources are shallowly embedded as executable Lean definitions:

* `memory.py` — tokenizer, lexical scorer, long-term memory store (SQLite
  tables become explicit lists of rows; `time.time()` and `os.urandom` become
  explicit parameters; the PBKDF2 hash becomes an abstract hash-function
  parameter), and the short-term window update;
* `db.py` — the SELECT-only SQL guard and the `run_sql` wrapper (the SQLAlchemy
  engine becomes an explicit execution oracle returning either columns/rows or
  an exception message);
* `graph.py` — the query-routing predicates and the best-effort metric
  extraction step (the JSON value a `json.loads` call may produce becomes an
  explicit inductive type, `Option`-valued to model a parse failure).

Machine floats are modelled as exact rationals; Python `str` operations are
modelled on the ASCII fragment (`Char.toLower` and an explicit whitespace
predicate), which covers every string the program manipulates in the claims.
All definitions are computable; fallible operations return `Option`/`Except`.
-/

/-! ## Python string primitives (ASCII fragment) -/

/-- Whitespace characters removed by Python `str.strip()` (ASCII fragment). -/
def isPySpace (c : Char) : Bool :=
  c == ' ' || c == '\t' || c == '\n' || c == '\r' || c == '\x0b' || c == '\x0c'

/-- Python `str.strip()` on a character list: drop whitespace from both ends. -/
def pyStrip (l : List Char) : List Char :=
  ((l.dropWhile isPySpace).reverse.dropWhile isPySpace).reverse

/-- Python `str.strip()` as a `String` operation. -/
def pyStripStr (s : String) : String := String.mk (pyStrip s.toList)

/-- Python `str.lower()` (ASCII fragment). -/
def strLower (s : String) : String := String.mk (s.toList.map Char.toLower)

/-- Python substring containment `p in s` on character lists. -/
def isSubstr (p s : List Char) : Bool :=
  (List.range (s.length + 1)).any (fun i => (s.drop i).take p.length == p)

/-- A regex `\w` word character: `[a-zA-Z0-9_]` (ASCII fragment). -/
def isWordChar (c : Char) : Bool :=
  ('a' ≤ c && c ≤ 'z') || ('A' ≤ c && c ≤ 'Z') || ('0' ≤ c && c ≤ '9') || c == '_'

/-- Does the word `w` occur in `s` at position `i` with `\b` boundaries on
both sides?  Boundary = start/end of string or a non-word character. -/
def matchesWordAt (w s : List Char) (i : Nat) : Bool :=
  (s.drop i).take w.length == w
    && (i == 0 || !isWordChar (s.getD (i - 1) ' '))
    && (s.length ≤ i + w.length || !isWordChar (s.getD (i + w.length) ' '))

/-- Python `re.search(rf"\b{w}\b", s)` for a plain word `w`: a whole-word
occurrence of `w` anywhere in `s`. -/
def containsWord (w s : String) : Bool :=
  (List.range (s.toList.length + 1)).any (matchesWordAt w.toList s.toList)

/-! ## `memory.py`: tokenizer and lexical scorer -/

/-- A character of a `[a-z0-9_]+` token run (the tokenizing regex is applied
to the lower-cased text, so upper-case letters cannot occur). -/
def isTokChar (c : Char) : Bool :=
  ('a' ≤ c && c ≤ 'z') || ('0' ≤ c && c ≤ '9') || c == '_'

/-- Maximal runs of token characters, i.e. `re.findall(r"[a-z0-9_]+", ·)`.
The accumulator holds the current run, reversed. -/
def tokenRuns : List Char → List Char → List (List Char)
  | [], acc => if acc.isEmpty then [] else [acc.reverse]
  | c :: cs, acc =>
    if isTokChar c then tokenRuns cs (c :: acc)
    else if acc.isEmpty then tokenRuns cs [] else acc.reverse :: tokenRuns cs []

/-- `memory.py` `_tokenize`: lower-case the text, extract `[a-z0-9_]+` runs,
keep only tokens of length ≥ 3. -/
def _tokenize (text : String) : List (List Char) :=
  (tokenRuns (text.toList.map Char.toLower) []).filter (fun t => 3 ≤ t.length)

/-- Distinct elements of a token list (Python `set(...)`; only cardinality and
membership of the set are ever used, so any duplicate-free representative
works; this one keeps last occurrences and recurses structurally). -/
def uniq : List (List Char) → List (List Char)
  | [] => []
  | x :: xs => if xs.contains x then uniq xs else x :: uniq xs

/-- `memory.py` `_keyword_score`: token-overlap ratio of query and document
plus a flat `0.25` bonus when the normalized query is a literal substring of
the lower-cased document.  Returns `0.0` when the query has no tokens. -/
def _keyword_score (query doc : String) : ℚ :=
  let q := pyStripStr (strLower query)
  let d := strLower doc
  let q_toks := uniq (_tokenize q)
  if q_toks.isEmpty then 0
  else
    let d_toks := uniq (_tokenize d)
    let overlap := (q_toks.filter (fun t => d_toks.contains t)).length
    let base : ℚ := (overlap : ℚ) / (max q_toks.length 1 : ℚ)
    if !(q == "") && isSubstr q.toList d.toList then base + 1 / 4 else base

/-! ## `memory.py`: long-term memory store

The `memories` SQLite table is a list of rows; `time.time()` is an explicit
`now` parameter. -/

/-- A row of the `memories` table. -/
structure MemRow where
  user_id : Nat
  created_ts : ℚ
  text : String
deriving DecidableEq

/-- `LongTermMemorySQLite.add_memory`: strip the text, do nothing if it is
empty, otherwise insert a row timestamped `now`.  Duplicate text is permitted
(the table has no uniqueness constraint on `text`), so insertion never fails. -/
def add_memory (db : List MemRow) (user_id : Nat) (now : ℚ) (text : String) :
    List MemRow :=
  let t := pyStripStr text
  if t = "" then db else db ++ [⟨user_id, now, t⟩]

/-- The candidate prefetch inside `search`:
`SELECT created_ts, text FROM memories WHERE user_id=? ORDER BY created_ts
DESC LIMIT ?`.  SQLite leaves the order of equal timestamps unspecified; a
stable sort by descending timestamp is one valid realization. -/
def fetch_candidates (db : List MemRow) (user_id : Nat) (limit : Nat) :
    List (ℚ × String) :=
  ((List.insertionSort (fun a b : MemRow => b.created_ts ≤ a.created_ts)
      (db.filter (fun r => r.user_id == user_id))).take limit).map
    (fun r => (r.created_ts, r.text))

/-- Age of an entry in days, clamped at zero:
`max((now - ts) / 86400.0, 0.0)`. -/
def age_days (now ts : ℚ) : ℚ := max ((now - ts) / 86400) 0

/-- The recency bonus `0.10 * (1.0 / (1.0 + age_days / 30.0))`. -/
def recency_boost (now ts : ℚ) : ℚ :=
  (1 / 10) * (1 / (1 + age_days now ts / 30))

/-- `LongTermMemorySQLite.search`: return `[]` for a blank query; otherwise
score the prefetched candidates, keep those whose lexical score reaches
`min_score`, add the recency bonus to the kept candidates' ranking score,
sort by ranking score descending (Python's stable sort) and truncate to `k`. -/
def search (db : List MemRow) (user_id : Nat) (query : String) (k : Nat)
    (min_score : ℚ) (candidate_limit : Nat) (now : ℚ) : List (ℚ × String) :=
  let q := pyStripStr query
  if q = "" then []
  else
    let rows := fetch_candidates db user_id candidate_limit
    let scored := rows.filterMap (fun p =>
      let s := _keyword_score q p.2
      let s2 := s + recency_boost now p.1
      if min_score ≤ s then some (s2, p.2) else none)
    (List.insertionSort (fun a b : ℚ × String => b.1 ≤ a.1) scored).take k

/-! ## `memory.py`: credential store

The `users` SQLite table (with its `username TEXT UNIQUE NOT NULL` column and
`AUTOINCREMENT` id) becomes a list of rows plus a next-id counter.  A violated
uniqueness constraint is the `sqlite3.IntegrityError` the INSERT raises,
modelled as `Except.error`.  The PBKDF2 hash and the random salt become
explicit parameters `H` and `salt`. -/

/-- A row of the `users` table. -/
structure UserRow where
  id : Nat
  username : String
  salt : String
  pw_hash : String
deriving DecidableEq

/-- The `users` table plus the `AUTOINCREMENT` counter. -/
structure UserDB where
  rows : List UserRow
  next_id : Nat
deriving DecidableEq

/-- The storage-level exception an INSERT can raise. -/
inductive DBError where
  | uniqueConstraint
deriving DecidableEq

/-- `LongTermMemorySQLite.create_user`: INSERT a fresh row.  The
`username TEXT UNIQUE` constraint makes the INSERT raise `IntegrityError`
when the username already exists; otherwise the new row id is returned. -/
def create_user (H : String → String → String) (db : UserDB)
    (username password salt : String) : Except DBError (Nat × UserDB) :=
  if db.rows.any (fun r => r.username == username) then
    Except.error DBError.uniqueConstraint
  else
    Except.ok (db.next_id,
      ⟨db.rows ++ [⟨db.next_id, username, salt, H password salt⟩],
       db.next_id + 1⟩)

/-- `LongTermMemorySQLite.authenticate`: look the username up, recompute the
salted hash, return the id on an exact hash match and `none` otherwise.
Total: a wrong password never raises. -/
def authenticate (H : String → String → String) (db : UserDB)
    (username password : String) : Option Nat :=
  match db.rows.find? (fun r => r.username == username) with
  | none => none
  | some r => if H password r.salt == r.pw_hash then some r.id else none

/-- `LongTermMemorySQLite.create_or_auth`: authenticate; on failure fall
through to `create_user`.  Returns the id together with the resulting table
state. -/
def create_or_auth (H : String → String → String) (db : UserDB)
    (username password salt : String) : Except DBError (Nat × UserDB) :=
  match authenticate H db username password with
  | some uid => Except.ok (uid, db)
  | none => create_user H db username password salt

/-! ## `memory.py`: short-term window -/

/-- One conversation turn `{role, content}`. -/
structure Turn where
  role : String
  content : String
deriving DecidableEq

/-- The short-term memory dict: `recent_turns` plus `older_summary`
(`setdefault` guarantees the summary key is always present, which the
structure models by making the field total). -/
structure STMemory where
  recent_turns : List Turn
  older_summary : String
deriving DecidableEq

/-- Python slicing `l[-n:]` for a natural `n`.  For `n = 0` the slice is
`l[0:]`, i.e. the whole list — not the empty list. -/
def pySliceLast {α : Type} (n : Nat) (l : List α) : List α :=
  if n = 0 then l else l.drop (l.length - n)

/-- `memory.py` `update_short_term_memory`: append the user turn then the
assistant turn, then keep `recent[-max_recent_turns:]`. -/
def update_short_term_memory (memory : STMemory) (user_q assistant_a : String)
    (max_recent_turns : Nat) : STMemory :=
  let recent := memory.recent_turns ++
    [⟨"user", user_q⟩, ⟨"assistant", assistant_a⟩]
  ⟨pySliceLast max_recent_turns recent, memory.older_summary⟩

/-! ## `db.py`: read-only SQL runner

The SQLAlchemy engine is external; its behavior on an accepted statement is an
explicit oracle producing either column names and rows (cell values are
`Option String`, `none` rendering as an empty cell like Python `None`) or a
raised exception's message. -/

/-- What executing a statement on the external engine does. -/
inductive ExecOutcome where
  | ok (cols : List String) (rows : List (List (Option String)))
  | raised (msg : String)

/-- The banned keyword list of `ReadOnlyDB._is_safe_select`. -/
def bannedKeywords : List String :=
  ["insert", "update", "delete", "drop", "alter", "truncate", "create",
   "merge", "grant", "revoke"]

/-- `ReadOnlyDB._is_safe_select`: the trimmed, lower-cased statement must
start with `select` and contain no banned keyword as a whole word. -/
def _is_safe_select (sql : String) : Bool :=
  let s := strLower (pyStripStr sql)
  if !(List.isPrefixOf "select".toList s.toList) then false
  else !(bannedKeywords.any (fun b => containsWord b s))

/-- One markdown table line `| c₁ | c₂ | ... |`. -/
def mdRow (cells : List String) : String :=
  "| " ++ String.intercalate " | " cells ++ " |"

/-- The markdown rendering of an accepted query's result in
`ReadOnlyDB.run_sql`: `(no columns)` without columns, otherwise a header row,
a separator row, and a body that is either the fetched rows (empty cells for
`None`) or a single `(no rows)` placeholder row. -/
def render_table (cols : List String) (rows : List (List (Option String))) :
    String :=
  if cols.isEmpty then "(no columns)"
  else
    let header := mdRow cols
    let sep := mdRow (cols.map (fun _ => "---"))
    let body :=
      if rows.isEmpty then [mdRow ("(no rows)" :: (cols.drop 1).map (fun _ => ""))]
      else rows.map (fun r => mdRow (r.map (fun v => v.getD "")))
    String.intercalate "\n" (header :: sep :: body)

/-- `ReadOnlyDB.run_sql`: reject unsafe statements with a textual marker,
execute safe ones (fetching at most `limit_rows` rows), and convert an
execution exception into `SQL_ERROR: <message>`.  Total — it never throws. -/
def run_sql (execute : String → ExecOutcome) (sql : String) (limit_rows : Nat) :
    String :=
  if !(_is_safe_select sql) then
    "SQL_ERROR: Unsafe or invalid SQL detected: " ++ sql
  else
    match execute sql with
    | ExecOutcome.raised e => "SQL_ERROR: " ++ e
    | ExecOutcome.ok cols rows => render_table cols (rows.take limit_rows)

/-! ## `graph.py`: query routing -/

/-- The three processing intents of `handle_query`. -/
inductive Intent where
  | Predictive
  | SqlAnalytic
  | PlainQA
deriving DecidableEq

/-- The lexical triggers of `_needs_sql`. -/
def sqlTriggers : List String :=
  ["show", "give", "find", "compare", "insight", "trend", "top", "count",
   "sum", "percent", "table", "rows", "columns"]

/-- `graph.py` `_needs_sql`: any SQL trigger as a substring of the
lower-cased query, or a whole-word `from` or `select`. -/
def _needs_sql (user_q : String) : Bool :=
  let q := strLower user_q
  sqlTriggers.any (fun t => isSubstr t.toList q.toList)
    || (containsWord "from" q || containsWord "select" q)

/-- The lexical triggers of `_is_predictive`. -/
def predictiveTriggers : List String :=
  ["suggest", "recommend", "next test", "predict", "what should we do",
   "how to improve", "strategy", "proposal"]

/-- `graph.py` `_is_predictive`: any predictive trigger as a substring of the
lower-cased query. -/
def _is_predictive (user_q : String) : Bool :=
  let q := strLower user_q
  predictiveTriggers.any (fun t => isSubstr t.toList q.toList)

/-- The routing order of `handle_query`: the predictive check runs first, the
SQL check second, plain QA is the default.  A total, deterministic function of
the query text. -/
def classify (user_q : String) : Intent :=
  if _is_predictive user_q then Intent.Predictive
  else if _needs_sql user_q then Intent.SqlAnalytic
  else Intent.PlainQA

/-! ## `graph.py`: best-effort metric extraction

`json.loads` on the LLM reply is modelled as an `Option JValue` (`none` =
the text was not parseable JSON; an empty reply yields the empty object).
Python `float(v)` on a decoded JSON value succeeds on numbers and booleans,
succeeds on exactly those strings that parse as float literals (an abstract
parameter `strParse`), and raises on `null`, arrays and objects.  The running
metrics map is a lookup function, `none` meaning the key is absent. -/

/-- A decoded JSON value. -/
inductive JValue where
  | jnull
  | jbool (b : Bool)
  | jnum (q : ℚ)
  | jstr (s : String)
  | jarr (xs : List JValue)
  | jobj (kvs : List (String × JValue))

/-- Python `float(v)` on a decoded JSON value, `none` = raises. -/
def pyFloat (strParse : String → Option ℚ) : JValue → Option ℚ
  | JValue.jnum q => some q
  | JValue.jbool b => some (if b then 1 else 0)
  | JValue.jstr s => strParse s
  | _ => none

/-- The metric-extraction step of `handle_query`: on an unparseable reply or a
non-object value the metrics map is returned unchanged (the exception is
swallowed); for an object, each numeric field is written into the map in
order (a failing `float(v)` skips only that field).  Total — never raises. -/
def extract_metrics (strParse : String → Option ℚ) (metrics : String → Option ℚ)
    (parsed : Option JValue) : String → Option ℚ :=
  match parsed with
  | some (JValue.jobj kvs) =>
      kvs.foldl (fun m kv =>
        match pyFloat strParse kv.2 with
        | some q => fun k2 => if k2 = kv.1 then some q else m k2
        | none => m) metrics
  | _ => metrics

/-- The last numeric value carried by key `k` in the decoded object — the
value that "later values overwrite earlier ones" leaves in the map. -/
def lastNumeric (strParse : String → Option ℚ) (k : String) :
    List (String × JValue) → Option ℚ
  | [] => none
  | kv :: rest =>
      Option.orElse (lastNumeric strParse k rest)
        (fun _ => if kv.1 = k then pyFloat strParse kv.2 else none)

/-! ## Claims -/

/-- Claim C1, counterexample: for an existing username and a wrong password,
`create_or_auth` does NOT return a new distinct identity id — the fall-through
`create_user` INSERT violates the `username UNIQUE` constraint and raises, so
the call returns no id at all. -/
theorem c1_counterexample :
    create_or_auth (fun p s => p ++ ":" ++ s)
        ⟨[⟨1, "alice", "s1", "pw:s1"⟩], 2⟩ "alice" "bad" "s2"
      = Except.error DBError.uniqueConstraint ∧
    (create_or_auth (fun p s => p ++ ":" ++ s)
        ⟨[⟨1, "alice", "s1", "pw:s1"⟩], 2⟩ "alice" "bad" "s2").isOk = false :=
  ⟨rfl, rfl⟩

/-- Claim C1 (amended): for every existing username, calling `create_or_auth`
with a password whose salted hash does not match silently falls through to
provisioning, and the provisioning INSERT hits the username uniqueness
constraint, so the call raises an integrity error instead of returning an id
(it does not fail closed, and it does not return a new identity either). -/
theorem c1_wrong_password_unique_violation (H : String → String → String)
    (db : UserDB) (username password salt : String)
    (hexists : ∃ r ∈ db.rows, r.username = username)
    (hauth : authenticate H db username password = none) :
    create_or_auth H db username password salt
      = Except.error DBError.uniqueConstraint := by
  obtain ⟨r, hr, hname⟩ := hexists
  have hany : db.rows.any (fun r => r.username == username) = true :=
    List.any_eq_true.mpr ⟨r, hr, by simp [hname]⟩
  simp [create_or_auth, hauth, create_user, hany]

theorem c1_wrong_password_unique_violation_witness :
    create_or_auth (fun p s => p ++ ":" ++ s)
        ⟨[⟨7, "bob", "s1", "pw:s1"⟩], 8⟩ "bob" "nope" "s9"
      = Except.error DBError.uniqueConstraint :=
  c1_wrong_password_unique_violation (fun p s => p ++ ":" ++ s)
    ⟨[⟨7, "bob", "s1", "pw:s1"⟩], 8⟩ "bob" "nope" "s9"
    ⟨⟨7, "bob", "s1", "pw:s1"⟩, by decide, rfl⟩ rfl

/-- Claim C3: `run_sql` accepts a statement iff its trimmed lower-cased text
begins with `select` and contains no banned keyword as a whole word
(`_is_safe_select`, whose definition is exactly that check); on rejection it
returns the `SQL_ERROR: Unsafe or invalid SQL detected: ` marker followed by
the original text; on an execution exception it returns `SQL_ERROR: ` plus
the exception message; being a total function it never throws.  The spec's
three concrete examples are included. -/
theorem c3_run_sql_select_only (execute : String → ExecOutcome) (sql : String)
    (limit_rows : Nat) :
    (_is_safe_select sql = false →
      run_sql execute sql limit_rows
        = "SQL_ERROR: Unsafe or invalid SQL detected: " ++ sql) ∧
    (_is_safe_select sql = true →
      (∀ e, execute sql = ExecOutcome.raised e →
        run_sql execute sql limit_rows = "SQL_ERROR: " ++ e) ∧
      (∀ cols rows, execute sql = ExecOutcome.ok cols rows →
        run_sql execute sql limit_rows = render_table cols (rows.take limit_rows))) ∧
    _is_safe_select "SELECT * FROM t; DROP TABLE t" = false ∧
    _is_safe_select "UPDATE t SET x=1" = false ∧
    _is_safe_select "SELECT * FROM t LIMIT 5" = true := by
  refine ⟨?_, ?_, by decide, by decide, by decide⟩
  · intro h; simp [run_sql, h]
  · intro h
    exact ⟨fun e he => by simp [run_sql, h, he],
           fun cols rows hok => by simp [run_sql, h, hok]⟩

theorem c3_run_sql_select_only_witness :
    run_sql (fun _ => ExecOutcome.raised "boom") "UPDATE t SET x=1" 200
      = "SQL_ERROR: Unsafe or invalid SQL detected: UPDATE t SET x=1" :=
  (c3_run_sql_select_only (fun _ => ExecOutcome.raised "boom")
    "UPDATE t SET x=1" 200).1 (by decide)

/-- Claim C4, counterexample: with cap 0 the Python slice `recent[-0:]` is the
whole list, so after an update `recent_turns` has 3 entries, not ≤ 0. -/
theorem c4_counterexample :
    ¬ ((update_short_term_memory ⟨[⟨"user", "q0"⟩], ""⟩ "u1" "a1" 0).recent_turns.length ≤ 0) := by
  decide

/-- Claim C4 (amended: for every cap ≥ 1): `update_short_term_memory` appends
a user turn then an assistant turn and truncates to the last `cap` entries,
so the window length is ≤ `cap`, equal to `min cap (old + 2)`, and the
surviving entries are a suffix (the most recent entries, in original order)
of the appended list; the summary slot is passed through unchanged. -/
theorem c4_window_truncation (memory : STMemory) (user_q assistant_a : String)
    (cap : Nat) (hcap : 1 ≤ cap) :
    (update_short_term_memory memory user_q assistant_a cap).recent_turns.length ≤ cap ∧
    (update_short_term_memory memory user_q assistant_a cap).recent_turns.length
      = min cap (memory.recent_turns.length + 2) ∧
    List.IsSuffix (update_short_term_memory memory user_q assistant_a cap).recent_turns
      (memory.recent_turns ++ [⟨"user", user_q⟩, ⟨"assistant", assistant_a⟩]) ∧
    (update_short_term_memory memory user_q assistant_a cap).older_summary
      = memory.older_summary := by
  have hne : cap ≠ 0 := by omega
  refine ⟨?_, ?_, ?_, ?_⟩ <;>
    simp only [update_short_term_memory, pySliceLast, if_neg hne]
  · simp only [List.length_drop, List.length_append, List.length_cons,
      List.length_nil]
    omega
  · simp only [List.length_drop, List.length_append, List.length_cons,
      List.length_nil]
    omega
  · exact List.drop_suffix _ _

theorem c4_window_truncation_witness :
    (update_short_term_memory ⟨[⟨"user", "q0"⟩, ⟨"assistant", "a0"⟩], "sum0"⟩
        "u1" "a1" 6).recent_turns.length ≤ 6 ∧
    (update_short_term_memory ⟨[⟨"user", "q0"⟩, ⟨"assistant", "a0"⟩], "sum0"⟩
        "u1" "a1" 6).recent_turns.length = min 6 ([⟨"user", "q0"⟩, ⟨"assistant", "a0"⟩] : List Turn).length.succ.succ ∧
    List.IsSuffix (update_short_term_memory ⟨[⟨"user", "q0"⟩, ⟨"assistant", "a0"⟩], "sum0"⟩
        "u1" "a1" 6).recent_turns
      ([⟨"user", "q0"⟩, ⟨"assistant", "a0"⟩] ++ [⟨"user", "u1"⟩, ⟨"assistant", "a1"⟩]) ∧
    (update_short_term_memory ⟨[⟨"user", "q0"⟩, ⟨"assistant", "a0"⟩], "sum0"⟩
        "u1" "a1" 6).older_summary = "sum0" := by
  have h := c4_window_truncation ⟨[⟨"user", "q0"⟩, ⟨"assistant", "a0"⟩], "sum0"⟩
    "u1" "a1" 6 (by decide)
  simpa using h

/-- Claim C5: `classify` is a total, deterministic function of the query text
(it is a Lean function), evaluated predictive-first, SQL second, plain-QA
default: the spec's three examples classify as stated, and any query matching
the predictive triggers is routed Predictive regardless of SQL triggers. -/
theorem c5_classify_routing :
    classify "suggest a strategy" = Intent.Predictive ∧
    classify "show me the top 10 rows from orders" = Intent.SqlAnalytic ∧
    classify "what is our pass rate" = Intent.PlainQA ∧
    ∀ q, _is_predictive q = true → classify q = Intent.Predictive := by
  refine ⟨by decide, by decide, by decide, ?_⟩
  intro q h
  simp [classify, h]

theorem c5_classify_routing_witness :
    classify "suggest the top rows" = Intent.Predictive :=
  c5_classify_routing.2.2.2 "suggest the top rows" (by decide)

/-- Claim C8: provisioning a fresh username then authenticating with the same
password returns exactly the provisioned id, and authenticating with a
password whose salted hash differs returns `none` — both as total functions,
so neither call throws (storage failure is the only `Except.error` path, and
it cannot occur for a fresh username). -/
theorem c8_auth_roundtrip (H : String → String → String) (db : UserDB)
    (username password wrong salt : String)
    (hfresh : ∀ r ∈ db.rows, r.username ≠ username)
    (hw : H wrong salt ≠ H password salt) :
    ∃ db2, create_user H db username password salt = Except.ok (db.next_id, db2) ∧
      authenticate H db2 username password = some db.next_id ∧
      authenticate H db2 username wrong = none := by
  have hany : db.rows.any (fun r => r.username == username) = false := by
    simp only [List.any_eq_false]
    intro r hr
    simp [hfresh r hr]
  have h1 : db.rows.find? (fun r => r.username == username) = none :=
    List.find?_eq_none.mpr (fun r hr => by simp [hfresh r hr])
  refine ⟨⟨db.rows ++ [⟨db.next_id, username, salt, H password salt⟩], db.next_id + 1⟩,
    ?_, ?_, ?_⟩
  · simp [create_user, hany]
  · simp [authenticate, List.find?_append, h1]
  · simp [authenticate, List.find?_append, h1, hw]

theorem c8_auth_roundtrip_witness :
    ∃ db2, create_user (fun p s => p ++ ":" ++ s) ⟨[], 1⟩ "alice" "pw" "s1"
        = Except.ok (1, db2) ∧
      authenticate (fun p s => p ++ ":" ++ s) db2 "alice" "pw" = some 1 ∧
      authenticate (fun p s => p ++ ":" ++ s) db2 "alice" "zz" = none :=
  c8_auth_roundtrip (fun p s => p ++ ":" ++ s) ⟨[], 1⟩ "alice" "pw" "zz" "s1"
    (by decide) (by decide)

/-- Claim C6: metric extraction is total (never raises): an unparseable reply
leaves the metrics map unchanged, a parseable non-object value leaves it
unchanged, and for an object each key ends up mapped to the last numeric
value the object carries for it (non-numeric values are skipped per-field),
falling back to the previous map for keys the object does not set. -/
theorem c6_metric_extraction_total (strParse : String → Option ℚ)
    (metrics : String → Option ℚ) :
    extract_metrics strParse metrics none = metrics ∧
    (∀ v, (∀ kvs, v ≠ JValue.jobj kvs) →
      extract_metrics strParse metrics (some v) = metrics) ∧
    (∀ kvs k, extract_metrics strParse metrics (some (JValue.jobj kvs)) k
      = Option.orElse (lastNumeric strParse k kvs) (fun _ => metrics k)) := by
  refine ⟨rfl, ?_, ?_⟩
  · intro v hv
    cases v with
    | jnull => rfl
    | jbool b => rfl
    | jnum q => rfl
    | jstr s => rfl
    | jarr xs => rfl
    | jobj kvs => exact absurd rfl (hv kvs)
  · intro kvs k
    induction kvs generalizing metrics with
    | nil => rfl
    | cons kv rest ih =>
      have hstep : extract_metrics strParse metrics (some (JValue.jobj (kv :: rest)))
          = extract_metrics strParse
              (match pyFloat strParse kv.2 with
               | some q => fun k2 => if k2 = kv.1 then some q else metrics k2
               | none => metrics) (some (JValue.jobj rest)) := rfl
      rw [hstep, ih, lastNumeric]
      cases hrest : lastNumeric strParse k rest with
      | some q => rfl
      | none =>
        cases hv : pyFloat strParse kv.2 with
        | some q =>
          by_cases hk : k = kv.1
          · simp [hv, hk, Option.orElse]
          · simp [hv, hk, Ne.symm hk, Option.orElse]
        | none => simp [hv, Option.orElse]

theorem c6_metric_extraction_witness :
    extract_metrics (fun _ => none) (fun _ => none) (some (JValue.jstr "oops"))
      = (fun _ => none) ∧
    extract_metrics (fun _ => none) (fun _ => none)
        (some (JValue.jobj [("pass_rate", JValue.jnum 82), ("note", JValue.jstr "x"),
          ("pass_rate", JValue.jnum 9)])) "pass_rate" = some 9 := by
  refine ⟨(c6_metric_extraction_total (fun _ => none) (fun _ => none)).2.1
    (JValue.jstr "oops") (fun kvs h => JValue.noConfusion h), ?_⟩
  rw [(c6_metric_extraction_total (fun _ => none) (fun _ => none)).2.2
    [("pass_rate", JValue.jnum 82), ("note", JValue.jstr "x"),
     ("pass_rate", JValue.jnum 9)] "pass_rate"]
  rfl

/-- Claim C9: the recency bonus is literally
`0.10 * (1 / (1 + ageDays / 30))` and is monotone: between two entries with
identical lexical scores, the newer one's final ranking score (lexical score
plus recency bonus, exactly as `search` computes it) is at least the older
one's. -/
theorem c9_recency_monotone (now ts1 ts2 : ℚ) (q t1 t2 : String)
    (hts : ts2 ≤ ts1) (hscore : _keyword_score q t1 = _keyword_score q t2) :
    recency_boost now ts1 = 1 / 10 * (1 / (1 + age_days now ts1 / 30)) ∧
    _keyword_score q t2 + recency_boost now ts2
      ≤ _keyword_score q t1 + recency_boost now ts1 := by
  refine ⟨rfl, ?_⟩
  have hage : age_days now ts1 ≤ age_days now ts2 := by
    unfold age_days
    refine max_le_max ?_ le_rfl
    have hsub : now - ts1 ≤ now - ts2 := by linarith
    exact div_le_div_of_nonneg_right hsub (by norm_num)
  have h0 : (0 : ℚ) ≤ age_days now ts1 := le_max_right _ _
  have h30 : (0 : ℚ) < 1 + age_days now ts1 / 30 := by
    have := div_nonneg h0 (show (0:ℚ) ≤ 30 by norm_num)
    linarith
  have h12 : 1 + age_days now ts1 / 30 ≤ 1 + age_days now ts2 / 30 := by
    have := div_le_div_of_nonneg_right hage (show (0:ℚ) ≤ 30 by norm_num)
    linarith
  have hinv := one_div_le_one_div_of_le h30 h12
  have hboost : recency_boost now ts2 ≤ recency_boost now ts1 := by
    unfold recency_boost
    have h10 : (0 : ℚ) ≤ 1 / 10 := by norm_num
    exact mul_le_mul_of_nonneg_left hinv h10
  calc _keyword_score q t2 + recency_boost now ts2
      = _keyword_score q t1 + recency_boost now ts2 := by rw [hscore]
    _ ≤ _keyword_score q t1 + recency_boost now ts1 := by linarith

theorem c9_recency_monotone_witness :
    recency_boost 200 100 = 1 / 10 * (1 / (1 + age_days 200 100 / 30)) ∧
    _keyword_score "abc" "abc" + recency_boost 200 50
      ≤ _keyword_score "abc" "abc" + recency_boost 200 100 :=
  c9_recency_monotone 200 100 50 "abc" "abc" "abc" (by norm_num) rfl

/-- Claim C2: `search` returns at most `k` entries, and every returned
entry's lexical score (the pre-recency `_keyword_score` of the stripped query
against the entry text) is at least `min_score` — so the recency bonus never
by itself makes an entry with a sub-threshold lexical score eligible. -/
theorem c2_search_bounded (db : List MemRow) (user_id : Nat) (query : String)
    (k : Nat) (min_score : ℚ) (candidate_limit : Nat) (now : ℚ) :
    (search db user_id query k min_score candidate_limit now).length ≤ k ∧
    ∀ p ∈ search db user_id query k min_score candidate_limit now,
      min_score ≤ _keyword_score (pyStripStr query) p.2 := by
  constructor
  · simp only [search]
    by_cases hq : pyStripStr query = ""
    · simp [hq]
    · rw [if_neg hq]
      exact List.length_take_le _ _
  · intro p hp
    simp only [search] at hp
    by_cases hq : pyStripStr query = ""
    · rw [if_pos hq] at hp
      exact absurd hp (List.not_mem_nil p)
    · rw [if_neg hq] at hp
      have hp2 := List.mem_of_mem_take hp
      have hp3 := (List.perm_insertionSort
        (fun a b : ℚ × String => b.1 ≤ a.1) _).mem_iff.mp hp2
      obtain ⟨a, ha, hfa⟩ := List.mem_filterMap.mp hp3
      by_cases hc : min_score ≤ _keyword_score (pyStripStr query) a.2
      · rw [if_pos hc] at hfa
        have h := Option.some.inj hfa
        rw [← h]
        exact hc
      · rw [if_neg hc] at hfa
        exact absurd hfa (by simp)

theorem c2_search_bounded_witness :
    (3 : ℚ) / 20 ≤ _keyword_score (pyStripStr "pass rate") "pass rate trends" := by
  have hs : _keyword_score "pass rate" "pass rate trends" = 5 / 4 := by
    simp +decide only [_keyword_score, uniq, _tokenize, tokenRuns, isTokChar,
      pyStripStr, pyStrip, strLower, isPySpace, isSubstr]
    norm_num
  have hfetch : fetch_candidates [⟨1, 100, "pass rate trends"⟩] 1 300
      = [(100, "pass rate trends")] := by decide
  have hq : pyStripStr "pass rate" = "pass rate" := by decide
  have hmem : ((5 : ℚ) / 4 + recency_boost 100 100, "pass rate trends")
      ∈ search [⟨1, 100, "pass rate trends"⟩] 1 "pass rate" 5 (3/20) 300 100 := by
    rw [search]
    simp only [hq, hfetch, List.filterMap, hs]
    norm_num [List.insertionSort, List.orderedInsert, recency_boost, age_days]
    decide
  exact (c2_search_bounded [⟨1, 100, "pass rate trends"⟩] 1 "pass rate" 5
    (3/20) 300 100).2 ((5 : ℚ) / 4 + recency_boost 100 100, "pass rate trends") hmem

/-- Claim C7 (amended): text that strips to empty is a no-op; for text that is
non-empty after stripping, `add_memory` inserts an entry timestamped `now`
whose text is the STRIPPED input (the source stores `text.strip()`, not the
raw text), and — provided the owner's entries fit in the candidate limit and
existing timestamps do not exceed `now`'s clock — a subsequent
`fetch_candidates` for that owner contains an entry with exactly that
stripped text and a timestamp at least `t0`, the time just before the append.
Duplicate content is permitted: the insert is unconditional, never failing. -/
theorem c7_append_fetch (db : List MemRow) (user_id : Nat) (t0 now : ℚ)
    (text : String) (limit : Nat) :
    (pyStripStr text = "" → add_memory db user_id now text = db) ∧
    (pyStripStr text ≠ "" → t0 ≤ now →
      (db.filter (fun r => r.user_id == user_id)).length < limit →
      ∃ e ∈ fetch_candidates (add_memory db user_id now text) user_id limit,
        e.2 = pyStripStr text ∧ t0 ≤ e.1) := by
  constructor
  · intro h; simp [add_memory, h]
  · intro hne hnow hlen
    have hadd : add_memory db user_id now text
        = db ++ [⟨user_id, now, pyStripStr text⟩] := by
      simp [add_memory, hne]
    have hfilter : (db ++ [(⟨user_id, now, pyStripStr text⟩ : MemRow)]).filter
        (fun r => r.user_id == user_id)
        = db.filter (fun r => r.user_id == user_id)
          ++ [(⟨user_id, now, pyStripStr text⟩ : MemRow)] := by
      rw [List.filter_append]; simp
    have hlen2 : (List.insertionSort (fun a b : MemRow => b.created_ts ≤ a.created_ts)
        (db.filter (fun r => r.user_id == user_id)
          ++ [⟨user_id, now, pyStripStr text⟩])).length ≤ limit := by
      rw [(List.perm_insertionSort _ _).length_eq, List.length_append]
      simp only [List.length_cons, List.length_nil]
      omega
    have hmem : (⟨user_id, now, pyStripStr text⟩ : MemRow)
        ∈ List.insertionSort (fun a b : MemRow => b.created_ts ≤ a.created_ts)
          (db.filter (fun r => r.user_id == user_id)
            ++ [⟨user_id, now, pyStripStr text⟩]) :=
      (List.perm_insertionSort _ _).mem_iff.mpr (by simp)
    rw [fetch_candidates, hadd, hfilter, List.take_of_length_le hlen2]
    exact ⟨(now, pyStripStr text),
      List.mem_map_of_mem (fun r => (r.created_ts, r.text)) hmem, rfl, hnow⟩

/-- Claim C7, counterexample to the claim as stated: appending `" hi "`
(non-empty after trimming) stores the trimmed text `"hi"`, and no fetched
entry carries text identical to the original input `" hi "`. -/
theorem c7_counterexample :
    add_memory [] 1 100 " hi " = [⟨1, 100, "hi"⟩] ∧
    fetch_candidates (add_memory [] 1 100 " hi ") 1 300 = [(100, "hi")] ∧
    ((fetch_candidates (add_memory [] 1 100 " hi ") 1 300).all
      fun e => e.2 != " hi ") = true := by
  refine ⟨by decide, by decide, by decide⟩

theorem c7_append_fetch_witness :
    add_memory [] 1 100 "   " = [] ∧
    ∃ e ∈ fetch_candidates (add_memory [] 2 100 " hi there ") 2 300,
      e.2 = pyStripStr " hi there " ∧ (50 : ℚ) ≤ e.1 :=
  ⟨(c7_append_fetch [] 1 50 100 "   " 300).1 (by decide),
   (c7_append_fetch [] 2 50 100 " hi there " 300).2 (by decide) (by decide)
     (by decide)⟩

/-- Claim C10: a query that is empty or whitespace-only short-circuits:
`search` returns `[]` for every store, candidate limit and `min_score` — even
a `min_score ≤ 0` that would make zero-lexical-score candidates eligible —
whereas a non-blank query whose normalized text has no tokens of length ≥ 3
(the hypothesis states that the tokenizer, applied to the query exactly as
the scorer normalizes it, yields nothing) is still scored: every candidate's
lexical score is `0`, so with `min_score ≤ 0` every prefetched candidate is
returned (up to `k`) carrying only its recency bonus. -/
theorem c10_blank_query_shortcut (db : List MemRow) (user_id : Nat)
    (query : String) (k : Nat) (min_score : ℚ) (candidate_limit : Nat)
    (now : ℚ) :
    (pyStripStr query = "" →
      search db user_id query k min_score candidate_limit now = []) ∧
    (pyStripStr query ≠ "" →
      _tokenize (pyStripStr (strLower (pyStripStr query))) = [] →
      min_score ≤ 0 →
      (search db user_id query k min_score candidate_limit now).length
        = min k (fetch_candidates db user_id candidate_limit).length ∧
      ∀ p ∈ search db user_id query k min_score candidate_limit now,
        ∃ r ∈ fetch_candidates db user_id candidate_limit,
          p = (recency_boost now r.1, r.2)) := by
  constructor
  · intro hq; simp [search, hq]
  · intro hq htok hms
    have hscore : ∀ d, _keyword_score (pyStripStr query) d = 0 := by
      intro d
      simp [_keyword_score, htok, uniq]
    have hfun : (fun p : ℚ × String =>
        if min_score ≤ _keyword_score (pyStripStr query) p.2
        then some (_keyword_score (pyStripStr query) p.2
          + recency_boost now p.1, p.2)
        else none)
        = fun p => some (0 + recency_boost now p.1, p.2) := by
      funext p
      rw [hscore p.2, if_pos hms]
    have hkey : ∀ rows : List (ℚ × String),
        (rows.filterMap (fun p =>
          if min_score ≤ _keyword_score (pyStripStr query) p.2
          then some (_keyword_score (pyStripStr query) p.2
            + recency_boost now p.1, p.2)
          else none))
        = rows.map (fun p => (0 + recency_boost now p.1, p.2)) := by
      intro rows
      rw [hfun]
      induction rows with
      | nil => rfl
      | cons a l ih => simp only [List.filterMap_cons, List.map_cons, ih]
    simp only [search, if_neg hq]
    rw [hkey (fetch_candidates db user_id candidate_limit)]
    constructor
    · rw [List.length_take, (List.perm_insertionSort _ _).length_eq,
        List.length_map]
    · intro p hp
      have hp2 := List.mem_of_mem_take hp
      have hp3 := (List.perm_insertionSort _ _).mem_iff.mp hp2
      obtain ⟨r, hr, heq⟩ := List.mem_map.mp hp3
      exact ⟨r, hr, by rw [← heq, zero_add]⟩

theorem c10_blank_query_witness :
    search [⟨1, 100, "xyz"⟩] 1 "   " 5 0 300 100 = [] ∧
    ((search [⟨1, 100, "xyz"⟩] 1 "ab" 5 0 300 100).length
      = min 5 (fetch_candidates [⟨1, 100, "xyz"⟩] 1 300).length ∧
    ∀ p ∈ search [⟨1, 100, "xyz"⟩] 1 "ab" 5 0 300 100,
      ∃ r ∈ fetch_candidates [⟨1, 100, "xyz"⟩] 1 300,
        p = (recency_boost 100 r.1, r.2)) :=
  ⟨(c10_blank_query_shortcut [⟨1, 100, "xyz"⟩] 1 "   " 5 0 300 100).1
     (by decide),
   (c10_blank_query_shortcut [⟨1, 100, "xyz"⟩] 1 "ab" 5 0 300 100).2
     (by decide) (by decide) (le_refl 0)⟩
